import Mathlib

/-!
Formal model of the OSland node-graph canvas engine.

The development shallowly embeds the canvas engine of the OSland IDE
extensions: the graph model (nodes, connections), hit-testing, the
drag/connect interaction handlers, the connection renderer and the
project (de)serialization.  Two reimplementations of the engine are
embedded:

* `Browser` — the browser extension's canvas (`extensions/browser/src/canvas.js`)
  together with the IDE shell around it (`extensions/browser/content/content.js`);
* `Webview` — the VS Code webview canvas (TypeScript).

JavaScript numbers are modelled as `Int` (every coordinate handled by the
claims is integral and only `+`, `-`, `*`, comparisons and `Math.abs`
occur).  Identifier generation (`Date.now()` + `Math.random()` suffix) is
modelled by passing the environment-produced identifier string as an
explicit argument.
-/

/-- A 2-D point `{x, y}`. -/
structure Point where
  x : Int
  y : Int
deriving Repr, DecidableEq

/-- A component template from the catalog.  The browser catalog records
`id`, `name`, `type`, `category`, `color`; the webview interface also
declares `inputs` and `outputs` (string lists of port names).  We use the
union of the fields; code that ignores a field simply never reads it. -/
structure Component where
  id : String
  name : String
  type : String
  category : String
  color : String
  inputs : List String
  outputs : List String
deriving Repr, DecidableEq

/-- A placed node: `{ id, component, x, y }`. -/
structure CanvasNode where
  id : String
  component : Component
  x : Int
  y : Int
deriving Repr, DecidableEq

namespace Browser

/-- A connection `{ id, fromNode, fromPort, toNode, toPort }`
(`extensions/browser/src/canvas.js`). -/
structure Connection where
  id : String
  fromNode : String
  fromPort : String
  toNode : String
  toPort : String
deriving Repr, DecidableEq

/-- The browser `Canvas` state: the node and connection sequences plus the
interaction fields set up in the constructor.  `selectedNode` holds the id
of the selected node (the source holds an object reference; mutation
through that reference is modelled as updating the node with that id). -/
structure Canvas where
  nodes : List CanvasNode
  connections : List Connection
  selectedNode : Option String
  isDragging : Bool
  dragOffset : Point
  mousePos : Point
deriving Repr, DecidableEq

/-- The canvas constructor's initial state. -/
def Canvas.initial : Canvas :=
  { nodes := [], connections := [], selectedNode := none,
    isDragging := false, dragOffset := ⟨0, 0⟩, mousePos := ⟨0, 0⟩ }

/-- Bounding-box test of `getNodeAtPosition`:
`pos.x >= node.x && pos.x <= node.x + 100 && pos.y >= node.y && pos.y <= node.y + 50`. -/
def nodeContains (pos : Point) (n : CanvasNode) : Bool :=
  decide (n.x ≤ pos.x ∧ pos.x ≤ n.x + 100 ∧ n.y ≤ pos.y ∧ pos.y ≤ n.y + 50)

/-- Source `Canvas.getNodeAtPosition(pos)`: the `for (const node of this.nodes)`
loop returns the first node whose box contains `pos`, else `null`. -/
def Canvas.getNodeAtPosition (c : Canvas) (pos : Point) : Option CanvasNode :=
  c.nodes.find? (nodeContains pos)

/-- Source `Canvas.addNode(component, x, y)`: pushes
`{ id: node-Date.now()-random, component: component, x, y }` and selects it.
The environment-generated id string is passed as `freshId`. -/
def Canvas.addNode (c : Canvas) (component : Component) (freshId : String)
    (x y : Int) : Canvas :=
  { c with nodes := c.nodes ++ [{ id := freshId, component := component, x := x, y := y }],
           selectedNode := some freshId }

/-- Source `Canvas.removeNode(nodeId)`: filters the node out of `nodes`, filters
every connection with `fromNode === nodeId || toNode === nodeId` out of
`connections`, and clears the selection if it was this node. -/
def Canvas.removeNode (c : Canvas) (nodeId : String) : Canvas :=
  { c with
    nodes := c.nodes.filter (fun node => node.id != nodeId),
    connections := c.connections.filter
      (fun conn => conn.fromNode != nodeId && conn.toNode != nodeId),
    selectedNode := if c.selectedNode = some nodeId then none else c.selectedNode }

/-- Source `Canvas.addConnection(fromNodeId, fromPort, toNodeId, toPort)`: pushes
the new connection unconditionally (no validation of any kind in the
source).  The generated id is passed as `freshId`. -/
def Canvas.addConnection (c : Canvas) (freshId : String)
    (fromNodeId fromPort toNodeId toPort : String) : Canvas :=
  { c with connections := c.connections ++
      [{ id := freshId, fromNode := fromNodeId, fromPort := fromPort,
         toNode := toNodeId, toPort := toPort }] }

/-- Source `Canvas.handleMouseMove(e)`: records the cursor, and when
`this.isDragging && this.selectedNode` sets the selected node's position to
`mousePos − dragOffset` (the source mutates the node through the
`selectedNode` reference; here the node with that id is updated). -/
def Canvas.handleMouseMove (c : Canvas) (cursor : Point) : Canvas :=
  let c1 := { c with mousePos := cursor }
  match c1.isDragging, c1.selectedNode with
  | true, some nid =>
      { c1 with nodes := c1.nodes.map (fun n =>
          if n.id = nid then
            { n with x := cursor.x - c1.dragOffset.x, y := cursor.y - c1.dragOffset.y }
          else n) }
  | _, _ => c1

/-- Source `Canvas.handleMouseDown(e)`: records the cursor and, if a node is under
it, starts dragging it with `dragOffset = cursor − node position`. -/
def Canvas.handleMouseDown (c : Canvas) (cursor : Point) : Canvas :=
  let c1 := { c with mousePos := cursor }
  match c1.getNodeAtPosition cursor with
  | some clickedNode =>
      { c1 with isDragging := true, selectedNode := some clickedNode.id,
                dragOffset := ⟨cursor.x - clickedNode.x, cursor.y - clickedNode.y⟩ }
  | none => c1

/-- A straight line emitted by the connection renderer. -/
structure DrawLine where
  x1 : Int
  y1 : Int
  x2 : Int
  y2 : Int
deriving Repr, DecidableEq

/-- One iteration of the `drawConnections` loop: resolve both endpoint
nodes with `nodes.find(...)`, then both port indices with `indexOf`
(`-1` when absent, modelled by `findIdx?`); only when all four resolve is a
line produced, at the positions computed in the source
(output port `i` at `(x+100, y+10+15·i)`, input port `i` at `(x, y+10+15·i)`). -/
def resolveConnection (nodes : List CanvasNode) (conn : Connection) : Option DrawLine :=
  match nodes.find? (fun n => n.id == conn.fromNode),
        nodes.find? (fun n => n.id == conn.toNode) with
  | some fromNode, some toNode =>
    match fromNode.component.outputs.findIdx? (fun p => p == conn.fromPort),
          toNode.component.inputs.findIdx? (fun p => p == conn.toPort) with
    | some fromPortIndex, some toPortIndex =>
        some { x1 := fromNode.x + 100,
               y1 := fromNode.y + 10 + 15 * (fromPortIndex : Int),
               x2 := toNode.x,
               y2 := toNode.y + 10 + 15 * (toPortIndex : Int) }
    | _, _ => none
  | _, _ => none

/-- Source `Canvas.drawConnections()`: the lines actually stroked, in order. -/
def Canvas.drawConnections (c : Canvas) : List DrawLine :=
  c.connections.filterMap (resolveConnection c.nodes)

/-- The set of connections for which `drawConnections` strokes a line
(the rendered connection set). -/
def Canvas.renderedConnections (c : Canvas) : List Connection :=
  c.connections.filter (fun conn => (resolveConnection c.nodes conn).isSome)

/-- Source `Canvas.getProjectData()`. -/
def Canvas.getProjectData (c : Canvas) : List CanvasNode × List Connection :=
  (c.nodes, c.connections)

/-- Source `Canvas.loadProjectData(projectData)`: replaces each sequence only when
the corresponding field is present (truthy). -/
def Canvas.loadProjectData (c : Canvas) (nodes : Option (List CanvasNode))
    (connections : Option (List Connection)) : Canvas :=
  let c1 := match nodes with
            | some ns => { c with nodes := ns }
            | none => c
  match connections with
  | some cs => { c1 with connections := cs }
  | none => c1

/-! ### JavaScript object identity for components

`Canvas.addNode` stores `component: component` — a reference to the very
object handed in by the component panel (`content.js` wires
`componentSelected` straight to `addNode(component, 100, 100)`), and
`Canvas.updateNodeProperty` assigns `node.component[property] = value`,
mutating that shared object.  The plain `Canvas` above is the by-value
view, exact for every operation that never writes through a component
reference.  To reason about `updateNodeProperty` the heap model below
makes object identity explicit: component objects live in a store
(`comps`, a list whose index is the object's address) and each node holds
the address (`compRef`) of its component object. -/

/-- A node holding a reference (store address) to its component object. -/
structure HeapNode where
  id : String
  compRef : Nat
  x : Int
  y : Int
deriving Repr, DecidableEq

/-- Canvas state with the component-object store made explicit. -/
structure HCanvas where
  comps : List Component
  nodes : List HeapNode
deriving Repr, DecidableEq

/-- Dereference a node's component object. -/
def HCanvas.resolve (c : HCanvas) (n : HeapNode) : Option Component :=
  c.comps[n.compRef]?

/-- Source `Canvas.addNode(component, x, y)` in the heap model: the new node
stores the address of the caller's component object — the same address the
catalog (and any other node made from this template) already holds. -/
def HCanvas.addNode (c : HCanvas) (compRef : Nat) (freshId : String)
    (x y : Int) : HCanvas :=
  { c with nodes := c.nodes ++ [{ id := freshId, compRef := compRef, x := x, y := y }] }

/-- The effect of `node.component[property] = value` on one component
object, for the string-valued properties the property panel edits.  Keys
other than these leave the modelled fields unchanged (in JavaScript they
would create an expando property no reader of this model observes);
`inputs`/`outputs` are never assigned through this path. -/
def setProp (comp : Component) (property value : String) : Component :=
  if property = "id" then { comp with id := value }
  else if property = "name" then { comp with name := value }
  else if property = "type" then { comp with type := value }
  else if property = "category" then { comp with category := value }
  else if property = "color" then { comp with color := value }
  else comp

/-- Source `Canvas.updateNodeProperty(nodeId, property, value)`:
`this.nodes.find(n => n.id === nodeId)`, and if found,
`node.component[property] = value` — an in-place write to the shared
component object. -/
def HCanvas.updateNodeProperty (c : HCanvas) (nodeId property value : String) : HCanvas :=
  match c.nodes.find? (fun n => n.id == nodeId) with
  | some node =>
    match c.comps[node.compRef]? with
    | some comp => { c with comps := c.comps.set node.compRef (setProp comp property value) }
    | none => c
  | none => c

/-! ### Project serialization (`content.js`, class `OSlandIDE`)

`exportProjectData` / `importProjectData` delegate to canvas methods
(`exportNodes`, `exportConnections`, `importNode`, `importConnection`,
`clear`) that are called but not defined in the repository's sources; they
are modelled from the spec below. -/

/-- Modelled from the spec: `Canvas.clear` (missing from the sources, only
called from `content.js`) — "`clear()`: empties both sequences; used
before project import and on new project". -/
def Canvas.clear (c : Canvas) : Canvas :=
  { c with nodes := [], connections := [] }

/-- Modelled from the spec: `Canvas.exportNodes` (missing from the
sources) — the export is a "snapshot of current nodes/connections plus
metadata; pure, no mutation". -/
def Canvas.exportNodes (c : Canvas) : List CanvasNode :=
  c.nodes

/-- Modelled from the spec: `Canvas.exportConnections` (missing from the
sources) — the connection half of the export snapshot. -/
def Canvas.exportConnections (c : Canvas) : List Connection :=
  c.connections

/-- Modelled from the spec: `Canvas.importNode` (missing from the sources)
— "re-inserts every node ... from the document, preserving the ids
recorded in the document (not regenerating them)". -/
def Canvas.importNode (c : Canvas) (nodeData : CanvasNode) : Canvas :=
  { c with nodes := c.nodes ++ [nodeData] }

/-- Modelled from the spec: `Canvas.importConnection` (missing from the
sources) — re-inserts the recorded connection, id preserved. -/
def Canvas.importConnection (c : Canvas) (connData : Connection) : Canvas :=
  { c with connections := c.connections ++ [connData] }

/-- The JSON project document produced by `exportProjectData`.  Fields a
document may lack (the `projectData.nodes && ...` defensive checks) are
`Option`s. -/
structure ProjectData where
  name : Option String
  nodes : Option (List CanvasNode)
  connections : Option (List Connection)
  version : String
  timestamp : String
deriving Repr, DecidableEq

/-- The `OSlandIDE` state relevant to serialization. -/
structure OSlandIDE where
  canvas : Canvas
  projectName : String
deriving Repr, DecidableEq

/-- Source `OSlandIDE.exportProjectData()`: `{ name, nodes: exportNodes(),
connections: exportConnections(), version: '1.0.0', timestamp }`.  The
wall-clock timestamp string is passed in. -/
def OSlandIDE.exportProjectData (ide : OSlandIDE) (timestamp : String) : ProjectData :=
  { name := some ide.projectName,
    nodes := some ide.canvas.exportNodes,
    connections := some ide.canvas.exportConnections,
    version := "1.0.0",
    timestamp := timestamp }

/-- Source `OSlandIDE.importProjectData(projectData)`: returns at once on a
missing document; otherwise takes `projectData.name || "Untitled Project"`
(`||` treats the empty string as falsy), calls `canvas.clear()`, then
imports each recorded node and connection when the field is present and
nonempty. -/
def OSlandIDE.importProjectData (ide : OSlandIDE) (pd : Option ProjectData) : OSlandIDE :=
  match pd with
  | none => ide
  | some projectData =>
    let newName :=
      match projectData.name with
      | some n => if n = "" then "Untitled Project" else n
      | none => "Untitled Project"
    let c0 := ide.canvas.clear
    let c1 :=
      match projectData.nodes with
      | some ns => if ns.length > 0 then ns.foldl Canvas.importNode c0 else c0
      | none => c0
    let c2 :=
      match projectData.connections with
      | some cs => if cs.length > 0 then cs.foldl Canvas.importConnection c1 else c1
      | none => c1
    { canvas := c2, projectName := newName }

end Browser

namespace Webview

/-- A webview connection: the TypeScript `Connection` interface also
records a `points` list (always created empty). -/
structure Connection where
  id : String
  fromNode : String
  fromPort : String
  toNode : String
  toPort : String
  points : List Point
deriving Repr, DecidableEq

/-- A resolved port under the cursor: `{ nodeId, portId }`. -/
structure PortRef where
  nodeId : String
  portId : String
deriving Repr, DecidableEq

/-- The webview `Canvas` state (fields the embedded handlers touch). -/
structure Canvas where
  nodes : List CanvasNode
  connections : List Connection
  selectedNode : Option String
  draggedNode : Option String
  dragOffset : Point
  isConnecting : Bool
  connectingFrom : Option PortRef
  mousePos : Point
deriving Repr, DecidableEq

/-- Webview `getNodeAtPosition`: same inclusive 100×50 bounding-box loop as the
browser canvas. -/
def Canvas.getNodeAtPosition (c : Canvas) (pos : Point) : Option CanvasNode :=
  c.nodes.find? (Browser.nodeContains pos)

/-- Port proximity test of `getPortAtPosition`:
`Math.abs(pos.x - portX) <= 5 && Math.abs(pos.y - portY) <= 5`. -/
def portHits (pos : Point) (portX portY : Int) : Bool :=
  decide ((pos.x - portX).natAbs ≤ 5 ∧ (pos.y - portY).natAbs ≤ 5)

/-- One of the two inner loops of `getPortAtPosition`: scan the port list
of a node, port `i` sitting at `(portX, baseY + 20·i)`, returning the
first port name within tolerance. -/
def findPortIn (pos : Point) (portX baseY : Int) : List String → Nat → Option String
  | [], _ => none
  | p :: rest, i =>
    if portHits pos portX (baseY + 20 * (i : Int)) then some p
    else findPortIn pos portX baseY rest (i + 1)

/-- Per-node body of the `getPortAtPosition` loop: input ports (left side,
`(x−10, y+15+20·i)`) are scanned before output ports (right side,
`(x+110, y+15+20·i)`); the port name is returned with no record of its
direction. -/
def portAtNode (pos : Point) (n : CanvasNode) : Option PortRef :=
  match findPortIn pos (n.x - 10) (n.y + 15) n.component.inputs 0 with
  | some p => some { nodeId := n.id, portId := p }
  | none =>
    match findPortIn pos (n.x + 110) (n.y + 15) n.component.outputs 0 with
    | some p => some { nodeId := n.id, portId := p }
    | none => none

/-- Source `Canvas.getPortAtPosition(pos)`: first hit over the node sequence. -/
def Canvas.getPortAtPosition (c : Canvas) (pos : Point) : Option PortRef :=
  c.nodes.findSome? (portAtNode pos)

/-- Source `Canvas.completeConnection()`: resolves the port under `mousePos`; if
one is found and a connect gesture is in progress, commits the connection
exactly when the released-over port's node differs from the origin node
(`port.nodeId !== this.connectingFrom.nodeId` — the only check made), then
always leaves the connecting state.  The generated id is passed in. -/
def Canvas.completeConnection (c : Canvas) (freshId : String) : Canvas :=
  let c1 : Canvas :=
    match c.getPortAtPosition c.mousePos, c.connectingFrom with
    | some port, some cf =>
      if port.nodeId ≠ cf.nodeId then
        { c with connections := c.connections ++
            [{ id := freshId, fromNode := cf.nodeId, fromPort := cf.portId,
               toNode := port.nodeId, toPort := port.portId, points := [] }] }
      else c
    | _, _ => c
  { c1 with isConnecting := false, connectingFrom := none }

/-- Source `Canvas.deleteSelectedNode()`: when a node is selected, first filters
out every connection touching it, then removes the node and clears the
selection. -/
def Canvas.deleteSelectedNode (c : Canvas) : Canvas :=
  match c.selectedNode with
  | some sid =>
    { c with
      connections := c.connections.filter
        (fun conn => conn.fromNode != sid && conn.toNode != sid),
      nodes := c.nodes.filter (fun node => node.id != sid),
      selectedNode := none }
  | none => c

end Webview

/-! ## General lemmas -/

/-- A successful `find?` splits its list at the first element satisfying
the predicate: everything before the hit fails the predicate. -/
theorem find_eq_some_split {α : Type} (p : α → Bool) (l : List α) (a : α)
    (h : l.find? p = some a) :
    ∃ l1 l2, l = l1 ++ a :: l2 ∧ ∀ b ∈ l1, p b = false := by
  induction l with
  | nil => simp [List.find?] at h
  | cons x xs ih =>
    by_cases hx : p x
    · rw [List.find?_cons_of_pos _ hx] at h
      obtain rfl : x = a := by simpa using h
      exact ⟨[], xs, by simp, by simp⟩
    · rw [List.find?_cons_of_neg _ hx] at h
      obtain ⟨l1, l2, hl, hfail⟩ := ih h
      refine ⟨x :: l1, l2, by rw [hl, List.cons_append], ?_⟩
      intro b hb
      rcases List.mem_cons.1 hb with rfl | hb1
      · exact Bool.eq_false_iff.2 hx
      · exact hfail b hb1

/-- The `setProp` write never touches the port lists. -/
theorem setProp_ports (comp : Component) (property value : String) :
    (Browser.setProp comp property value).inputs = comp.inputs ∧
    (Browser.setProp comp property value).outputs = comp.outputs := by
  unfold Browser.setProp
  split_ifs <;> exact ⟨rfl, rfl⟩

/-- Folding `importNode` appends exactly the imported nodes. -/
theorem foldl_importNode_nodes (ns : List CanvasNode) :
    ∀ c : Browser.Canvas,
      (ns.foldl Browser.Canvas.importNode c).nodes = c.nodes ++ ns := by
  induction ns with
  | nil => intro c; simp
  | cons n rest ih =>
    intro c
    rw [List.foldl_cons, ih (c.importNode n)]
    simp [Browser.Canvas.importNode]

/-- Folding `importNode` leaves the connections untouched. -/
theorem foldl_importNode_connections (ns : List CanvasNode) :
    ∀ c : Browser.Canvas,
      (ns.foldl Browser.Canvas.importNode c).connections = c.connections := by
  induction ns with
  | nil => intro c; rfl
  | cons n rest ih =>
    intro c
    rw [List.foldl_cons, ih (c.importNode n)]
    rfl

/-- Folding `importConnection` appends exactly the imported connections. -/
theorem foldl_importConnection_connections (cs : List Browser.Connection) :
    ∀ c : Browser.Canvas,
      (cs.foldl Browser.Canvas.importConnection c).connections = c.connections ++ cs := by
  induction cs with
  | nil => intro c; simp
  | cons cn rest ih =>
    intro c
    rw [List.foldl_cons, ih (c.importConnection cn)]
    simp [Browser.Canvas.importConnection]

/-- Folding `importConnection` leaves the nodes untouched. -/
theorem foldl_importConnection_nodes (cs : List Browser.Connection) :
    ∀ c : Browser.Canvas,
      (cs.foldl Browser.Canvas.importConnection c).nodes = c.nodes := by
  induction cs with
  | nil => intro c; rfl
  | cons cn rest ih =>
    intro c
    rw [List.foldl_cons, ih (c.importConnection cn)]
    rfl

/-- Evaluating `importProjectData` on a present document: the canvas afterwards holds
exactly the recorded node and connection sequences (empty when the field
is absent). -/
theorem importProjectData_canvas (ide : Browser.OSlandIDE) (pd : Browser.ProjectData) :
    (ide.importProjectData (some pd)).canvas.nodes = pd.nodes.getD [] ∧
    (ide.importProjectData (some pd)).canvas.connections = pd.connections.getD [] := by
  obtain ⟨nm, ons, ocs, v, ts⟩ := pd
  cases ons with
  | none =>
    cases ocs with
    | none => exact ⟨rfl, rfl⟩
    | some cs =>
      cases cs with
      | nil => exact ⟨rfl, rfl⟩
      | cons c0 rest =>
        simp [Browser.OSlandIDE.importProjectData, Browser.Canvas.clear,
          foldl_importConnection_connections, foldl_importConnection_nodes,
          Browser.Canvas.importConnection, Browser.Canvas.importNode]
  | some ns =>
    cases ns with
    | nil =>
      cases ocs with
      | none => exact ⟨rfl, rfl⟩
      | some cs =>
        cases cs with
        | nil => exact ⟨rfl, rfl⟩
        | cons c0 rest =>
          simp [Browser.OSlandIDE.importProjectData, Browser.Canvas.clear,
            foldl_importConnection_connections, foldl_importConnection_nodes,
            Browser.Canvas.importConnection, Browser.Canvas.importNode]
    | cons n0 nrest =>
      cases ocs with
      | none =>
        simp [Browser.OSlandIDE.importProjectData, Browser.Canvas.clear,
          foldl_importNode_nodes, foldl_importNode_connections,
          Browser.Canvas.importConnection, Browser.Canvas.importNode]
      | some cs =>
        cases cs with
        | nil =>
          simp [Browser.OSlandIDE.importProjectData, Browser.Canvas.clear,
            foldl_importNode_nodes, foldl_importNode_connections,
            Browser.Canvas.importConnection, Browser.Canvas.importNode]
        | cons c0 crest =>
          simp [Browser.OSlandIDE.importProjectData, Browser.Canvas.clear,
            foldl_importNode_nodes, foldl_importNode_connections,
            foldl_importConnection_connections, foldl_importConnection_nodes,
            Browser.Canvas.importConnection, Browser.Canvas.importNode]


/-! ## Fixtures -/

/-- A template with one input and one output port. -/
def sampleComponent : Component :=
  { id := "c", name := "C", type := "t", category := "k", color := "#fff",
    inputs := ["in"], outputs := ["out"] }

/-- A node "A" at the origin. -/
def nodeA : CanvasNode := { id := "A", component := sampleComponent, x := 0, y := 0 }

/-- A node "B" at (200, 0). -/
def nodeB : CanvasNode := { id := "B", component := sampleComponent, x := 200, y := 0 }

/-- A canvas holding only a dangling connection (its endpoints name no
node), as produced e.g. by `addConnection` with unknown ids or by
importing a document recorded against deleted nodes. -/
def danglingOnlyCanvas : Browser.Canvas :=
  { Browser.Canvas.initial with
    connections := [{ id := "c1", fromNode := "x", fromPort := "p",
                      toNode := "y", toPort := "q" }] }

/-- A canvas holding node "A" (template with ≥ 1 input and ≥ 1 output)
and no connection. -/
def singleNodeCanvas : Browser.Canvas :=
  { Browser.Canvas.initial with nodes := [nodeA] }

/-- Webview canvas mid connect-gesture: dragging a wire out of node A's
output port, cursor released exactly over node B's output port
(`(B.x + 110, B.y + 15)` = `(310, 15)`). -/
def gestureCanvas : Webview.Canvas :=
  { nodes := [nodeA, nodeB], connections := [], selectedNode := none,
    draggedNode := none, dragOffset := ⟨0, 0⟩, isConnecting := true,
    connectingFrom := some { nodeId := "A", portId := "out" },
    mousePos := ⟨310, 15⟩ }

/-! ## Claims -/

/-- Claim C2, counterexample: `removeNode` with an id not present among
the nodes is not always a no-op — on a canvas whose only content is a
dangling connection referencing the unknown id "x", `removeNode("x")`
deletes that connection. -/
theorem removeNode_unknown_id_not_noop :
    danglingOnlyCanvas.nodes.all (fun n => n.id != "x") = true ∧
    danglingOnlyCanvas.removeNode "x" ≠ danglingOnlyCanvas := by
  refine ⟨rfl, ?_⟩
  intro h
  have : (danglingOnlyCanvas.removeNode "x").connections =
      danglingOnlyCanvas.connections := by rw [h]
  simp [danglingOnlyCanvas, Browser.Canvas.removeNode] at this

/-- Claim C2 (amended): after `removeNode(nodeId)` no node with that id and
no connection touching that id remains (cascading delete); and `removeNode`
with an id that matches no node and no connection endpoint leaves the node
and connection sequences unchanged.  (An unknown id that is still named by
a dangling connection removes exactly those connections.) -/
theorem removeNode_cascades_and_noop_when_unreferenced
    (c : Browser.Canvas) (nodeId : String) :
    (∀ n ∈ (c.removeNode nodeId).nodes, n.id ≠ nodeId) ∧
    (∀ conn ∈ (c.removeNode nodeId).connections,
       conn.fromNode ≠ nodeId ∧ conn.toNode ≠ nodeId) ∧
    ((∀ n ∈ c.nodes, n.id ≠ nodeId) →
     (∀ conn ∈ c.connections, conn.fromNode ≠ nodeId ∧ conn.toNode ≠ nodeId) →
     (c.removeNode nodeId).nodes = c.nodes ∧
       (c.removeNode nodeId).connections = c.connections) := by
  refine ⟨?_, ?_, ?_⟩
  · intro n hn
    have := (List.mem_filter.1 hn).2
    simpa using this
  · intro conn hc
    have := (List.mem_filter.1 hc).2
    constructor
    · simpa using (Bool.and_eq_true_iff.1 this).1
    · simpa using (Bool.and_eq_true_iff.1 this).2
  · intro hn hc
    constructor
    · apply List.filter_eq_self.2
      intro n hmem
      simpa using hn n hmem
    · apply List.filter_eq_self.2
      intro conn hmem
      have h := hc conn hmem
      simp [h.1, h.2]

/-- Claim C2 witness: the amended no-op branch at a concrete canvas
(node "A" present, id "Z" unreferenced). -/
theorem removeNode_cascades_witness :
    (singleNodeCanvas.removeNode "Z").nodes = singleNodeCanvas.nodes ∧
    (singleNodeCanvas.removeNode "Z").connections = singleNodeCanvas.connections :=
  (removeNode_cascades_and_noop_when_unreferenced singleNodeCanvas "Z").2.2
    (by decide) (by decide)

/-- Claim C3, counterexample: `Canvas.addConnection` performs no
validation at all — called with equal endpoint node ids on a canvas whose
node "A" has one input and one output, it happily appends a self-loop and
the connection count grows from 0 to 1. -/
theorem addConnection_self_loop_created :
    (singleNodeCanvas.addConnection "cid" "A" "out" "A" "in").connections =
      [{ id := "cid", fromNode := "A", fromPort := "out",
         toNode := "A", toPort := "in" }] ∧
    singleNodeCanvas.connections.length = 0 ∧
    sampleComponent.inputs.length ≥ 1 ∧ sampleComponent.outputs.length ≥ 1 := by
  refine ⟨rfl, rfl, ?_, ?_⟩ <;> decide

/-- Claim C3 (amended): the connect *gesture* never commits a self-loop —
`completeConnection` only ever appends a connection whose endpoints are
distinct nodes, and when the released-over port belongs to the origin node
the connection sequence is left unchanged.  (`Canvas.addConnection` itself
does not reject anything; the self-loop check lives in the gesture.) -/
theorem completeConnection_no_self_loop (c : Webview.Canvas) (freshId : String) :
    (∀ conn ∈ (c.completeConnection freshId).connections,
       conn ∈ c.connections ∨ conn.fromNode ≠ conn.toNode) ∧
    (∀ port cf, c.getPortAtPosition c.mousePos = some port →
       c.connectingFrom = some cf → port.nodeId = cf.nodeId →
       (c.completeConnection freshId).connections = c.connections) := by
  constructor
  · intro conn hmem
    unfold Webview.Canvas.completeConnection at hmem
    cases hp : c.getPortAtPosition c.mousePos with
    | none =>
      rw [hp] at hmem
      exact Or.inl hmem
    | some port =>
      cases hcf : c.connectingFrom with
      | none =>
        rw [hp, hcf] at hmem
        exact Or.inl hmem
      | some cf =>
        rw [hp, hcf] at hmem
        by_cases hne : port.nodeId = cf.nodeId
        · simp [hne] at hmem
          exact Or.inl hmem
        · simp [hne] at hmem
          rcases hmem with h | h
          · exact Or.inl h
          · refine Or.inr ?_
            rw [h]
            simp only [ne_eq]
            intro hh
            exact hne hh.symm
  · intro port cf hp hcf heq
    unfold Webview.Canvas.completeConnection
    rw [hp, hcf]
    simp [heq]

/-- Claim C3 witness: releasing a connect gesture from node A's output
over node A itself commits nothing. -/
theorem completeConnection_no_self_loop_witness :
    ({ gestureCanvas with mousePos := ⟨110, 15⟩ }.completeConnection "cid").connections =
      ({ gestureCanvas with mousePos := ⟨110, 15⟩ } : Webview.Canvas).connections :=
  (completeConnection_no_self_loop { gestureCanvas with mousePos := ⟨110, 15⟩ } "cid").2
    { nodeId := "A", portId := "out" } { nodeId := "A", portId := "out" }
    (by decide) (by decide) rfl

/-- Claim C10: when the connect gesture completes, the only commit
condition is "released over a port of a different node"; the port's
direction is never consulted.  Concretely, releasing over node B's output
port commits a connection whose `toPort` is "out" — an output, not an
input, of B's template — with no rejection. -/
theorem completeConnection_ignores_port_direction :
    (gestureCanvas.completeConnection "cid").connections =
      [{ id := "cid", fromNode := "A", fromPort := "out",
         toNode := "B", toPort := "out", points := [] }] ∧
    "out" ∈ nodeB.component.outputs ∧ "out" ∉ nodeB.component.inputs := by
  refine ⟨?_, ?_, ?_⟩ <;> decide

/-- Claim C1: the export/import round trip reconstructs the graph
verbatim — identical node sequences (hence identical ids, positions, and
template port lists) and identical connection sequences (hence identical
endpoint sets), with the recorded ids preserved. -/
theorem export_import_round_trip (ide : Browser.OSlandIDE) (timestamp : String) :
    (ide.importProjectData (some (ide.exportProjectData timestamp))).canvas.nodes =
      ide.canvas.nodes ∧
    (ide.importProjectData (some (ide.exportProjectData timestamp))).canvas.connections =
      ide.canvas.connections ∧
    (ide.importProjectData (some (ide.exportProjectData timestamp))).canvas.nodes.map
        (fun n => n.id) = ide.canvas.nodes.map (fun n => n.id) ∧
    (ide.importProjectData (some (ide.exportProjectData timestamp))).canvas.nodes.map
        (fun n => (n.x, n.y)) = ide.canvas.nodes.map (fun n => (n.x, n.y)) ∧
    (ide.importProjectData (some (ide.exportProjectData timestamp))).canvas.nodes.map
        (fun n => (n.component.inputs, n.component.outputs)) =
      ide.canvas.nodes.map (fun n => (n.component.inputs, n.component.outputs)) ∧
    (ide.importProjectData (some (ide.exportProjectData timestamp))).canvas.connections.map
        (fun conn => (conn.fromNode, conn.fromPort, conn.toNode, conn.toPort)) =
      ide.canvas.connections.map
        (fun conn => (conn.fromNode, conn.fromPort, conn.toNode, conn.toPort)) := by
  have h := importProjectData_canvas ide (ide.exportProjectData timestamp)
  have hn : (ide.importProjectData (some (ide.exportProjectData timestamp))).canvas.nodes =
      ide.canvas.nodes := by
    rw [h.1]
    rfl
  have hc : (ide.importProjectData
      (some (ide.exportProjectData timestamp))).canvas.connections =
      ide.canvas.connections := by
    rw [h.2]
    rfl
  exact ⟨hn, hc, by rw [hn], by rw [hn], by rw [hn], by rw [hc]⟩

/-- Claim C4: `importProjectData` first clears the live graph and then
re-inserts exactly the nodes and connections recorded in the document,
preserving the recorded ids; an absent `nodes` or `connections` field is
skipped (leaving that sequence empty), a missing document is ignored, and
the import is a total function — it never throws on any well-typed
document. -/
theorem importProjectData_clears_and_reinserts :
    (∀ (ide : Browser.OSlandIDE) (pd : Browser.ProjectData),
       (ide.importProjectData (some pd)).canvas.nodes = pd.nodes.getD [] ∧
       (ide.importProjectData (some pd)).canvas.connections = pd.connections.getD [] ∧
       (ide.importProjectData (some pd)).canvas.nodes.map (fun n => n.id) =
         (pd.nodes.getD []).map (fun n => n.id) ∧
       (ide.importProjectData (some pd)).canvas.connections.map (fun conn => conn.id) =
         (pd.connections.getD []).map (fun conn => conn.id)) ∧
    (∀ ide : Browser.OSlandIDE, ide.importProjectData none = ide) := by
  constructor
  · intro ide pd
    have h := importProjectData_canvas ide pd
    exact ⟨h.1, h.2, by rw [h.1], by rw [h.2]⟩
  · intro ide
    rfl

/-- The shared-template heap canvas: both nodes were created by `addNode`
from the same catalog component object (address 0), exactly as the IDE
shell does (`componentSelected` hands the catalog object itself to
`addNode`). -/
def sharedHeapCanvas : Browser.HCanvas :=
  ((Browser.HCanvas.mk [sampleComponent] []).addNode 0 "n1" 0 0).addNode 0 "n2" 10 10

/-- The second node of `sharedHeapCanvas`. -/
def sharedNode2 : Browser.HeapNode := { id := "n2", compRef := 0, x := 10, y := 10 }

/-- Claim C5, counterexample: `addNode` stores a *reference* to the
template object, not a copy — after two nodes are instantiated from the
same catalog component, renaming node "n1" through `updateNodeProperty`
changes node "n2"'s resolved name from "C" to "X" as well. -/
theorem addNode_shares_template_object :
    sharedNode2 ∈ sharedHeapCanvas.nodes ∧
    (sharedHeapCanvas.resolve sharedNode2).map Component.name = some "C" ∧
    ((sharedHeapCanvas.updateNodeProperty "n1" "name" "X").resolve sharedNode2).map
        Component.name = some "X" := by
  refine ⟨?_, ?_, ?_⟩ <;> decide

/-- Claim C5 (amended): `addNode` stores a reference to the component
object, so `updateNodeProperty` on one node mutates the template shared by
every node instantiated from it: after the update, a node holding the same
component reference resolves to the updated component, a node holding a
different reference is untouched, the node sequence itself is unchanged,
and no node's input/output port lists ever change (the property write
never touches them). -/
theorem updateNodeProperty_shared_mutation
    (c : Browser.HCanvas) (nodeId property value : String)
    (node m : Browser.HeapNode) (comp : Component)
    (hfind : c.nodes.find? (fun n => n.id == nodeId) = some node)
    (hcomp : c.comps[node.compRef]? = some comp) :
    (c.updateNodeProperty nodeId property value).nodes = c.nodes ∧
    (m.compRef = node.compRef →
       (c.updateNodeProperty nodeId property value).resolve m =
         some (Browser.setProp comp property value)) ∧
    (m.compRef ≠ node.compRef →
       (c.updateNodeProperty nodeId property value).resolve m = c.resolve m) ∧
    ((c.updateNodeProperty nodeId property value).resolve m).map Component.inputs =
      (c.resolve m).map Component.inputs ∧
    ((c.updateNodeProperty nodeId property value).resolve m).map Component.outputs =
      (c.resolve m).map Component.outputs := by
  have hlt : node.compRef < c.comps.length := by
    by_contra hge
    rw [List.getElem?_eq_none (Nat.le_of_not_lt hge)] at hcomp
    exact Option.noConfusion hcomp
  have hupd : c.updateNodeProperty nodeId property value =
      { c with comps := c.comps.set node.compRef (Browser.setProp comp property value) } := by
    unfold Browser.HCanvas.updateNodeProperty
    rw [hfind]
    simp [hcomp]
  have hsame : ∀ j, j = node.compRef →
      (c.comps.set node.compRef (Browser.setProp comp property value))[j]? =
        some (Browser.setProp comp property value) := by
    intro j hj
    subst hj
    rw [List.getElem?_set_self]
    exact hlt
  have hother : ∀ j, j ≠ node.compRef →
      (c.comps.set node.compRef (Browser.setProp comp property value))[j]? =
        c.comps[j]? := by
    intro j hj
    exact List.getElem?_set_ne (fun hh => hj hh.symm)
  refine ⟨by rw [hupd], ?_, ?_, ?_, ?_⟩
  · intro heq
    rw [hupd]
    unfold Browser.HCanvas.resolve
    exact hsame m.compRef heq
  · intro hne
    rw [hupd]
    unfold Browser.HCanvas.resolve
    exact hother m.compRef hne
  · by_cases heq : m.compRef = node.compRef
    · rw [hupd]
      unfold Browser.HCanvas.resolve
      rw [hsame m.compRef heq, heq, hcomp]
      simp [(setProp_ports comp property value).1]
    · rw [hupd]
      unfold Browser.HCanvas.resolve
      rw [hother m.compRef heq]
  · by_cases heq : m.compRef = node.compRef
    · rw [hupd]
      unfold Browser.HCanvas.resolve
      rw [hsame m.compRef heq, heq, hcomp]
      simp [(setProp_ports comp property value).2]
    · rw [hupd]
      unfold Browser.HCanvas.resolve
      rw [hother m.compRef heq]

/-- Claim C5 witness: the shared-mutation theorem instantiated on the
two-node shared-template canvas. -/
theorem updateNodeProperty_shared_mutation_witness :
    (sharedHeapCanvas.updateNodeProperty "n1" "name" "X").resolve sharedNode2 =
      some (Browser.setProp sampleComponent "name" "X") ∧
    ((sharedHeapCanvas.updateNodeProperty "n1" "name" "X").resolve sharedNode2).map
        Component.inputs = (sharedHeapCanvas.resolve sharedNode2).map Component.inputs :=
  ⟨(updateNodeProperty_shared_mutation sharedHeapCanvas "n1" "name" "X"
      { id := "n1", compRef := 0, x := 0, y := 0 } sharedNode2 sampleComponent
      (by decide) (by decide)).2.1 rfl,
   (updateNodeProperty_shared_mutation sharedHeapCanvas "n1" "name" "X"
      { id := "n1", compRef := 0, x := 0, y := 0 } sharedNode2 sampleComponent
      (by decide) (by decide)).2.2.2.1⟩

/-- The node of the hit-testing example, placed at (100, 100). -/
def hitNode : CanvasNode := { id := "h", component := sampleComponent, x := 100, y := 100 }

/-- A canvas holding only `hitNode`. -/
def hitTestCanvas : Browser.Canvas :=
  { Browser.Canvas.initial with nodes := [hitNode] }

/-- Claim C6: `getNodeAtPosition` returns the first node in sequence order
whose axis-aligned 100×50 bounding box (from `position` to
`position + (100, 50)`, boundaries inclusive) contains the point, and
`none` when no node's box contains it. -/
theorem getNodeAtPosition_first_hit (c : Browser.Canvas) (pos : Point) :
    (∀ n : CanvasNode, Browser.nodeContains pos n = true ↔
       (n.x ≤ pos.x ∧ pos.x ≤ n.x + 100 ∧ n.y ≤ pos.y ∧ pos.y ≤ n.y + 50)) ∧
    (∀ n, c.getNodeAtPosition pos = some n →
       Browser.nodeContains pos n = true ∧
       ∃ l1 l2, c.nodes = l1 ++ n :: l2 ∧
         ∀ m ∈ l1, Browser.nodeContains pos m = false) ∧
    (c.getNodeAtPosition pos = none →
       ∀ m ∈ c.nodes, Browser.nodeContains pos m = false) := by
  refine ⟨?_, ?_, ?_⟩
  · intro n
    simp [Browser.nodeContains]
  · intro n h
    exact ⟨List.find?_some h, find_eq_some_split _ _ _ h⟩
  · intro h m hm
    have := List.find?_eq_none.1 h m hm
    simpa using this

/-- Claim C6 witness: the node at (100, 100) is hit by (150, 120) — being
the first (only) node containing it — and missed by (250, 120). -/
theorem getNodeAtPosition_first_hit_witness :
    (Browser.nodeContains ⟨150, 120⟩ hitNode = true ∧
     ∃ l1 l2, hitTestCanvas.nodes = l1 ++ hitNode :: l2 ∧
       ∀ m ∈ l1, Browser.nodeContains ⟨150, 120⟩ m = false) ∧
    Browser.nodeContains ⟨250, 120⟩ hitNode = false :=
  ⟨(getNodeAtPosition_first_hit hitTestCanvas ⟨150, 120⟩).2.1 hitNode (by decide),
   (getNodeAtPosition_first_hit hitTestCanvas ⟨250, 120⟩).2.2 (by decide) hitNode
     (by decide)⟩

/-- Claim C7: while dragging, every pointer-move puts the dragged node at
`cursor − offset`, with no canvas-bounds clamping and no collision
avoidance; all other nodes and the id sequence are untouched. -/
theorem handleMouseMove_drag_unclamped
    (c : Browser.Canvas) (cursor : Point) (nid : String)
    (hdrag : c.isDragging = true) (hsel : c.selectedNode = some nid) :
    (∀ n ∈ (c.handleMouseMove cursor).nodes, n.id = nid →
       n.x = cursor.x - c.dragOffset.x ∧ n.y = cursor.y - c.dragOffset.y) ∧
    (∀ n ∈ (c.handleMouseMove cursor).nodes, n.id ≠ nid → n ∈ c.nodes) ∧
    (c.handleMouseMove cursor).nodes.map (fun n => n.id) =
      c.nodes.map (fun n => n.id) := by
  have hred : (c.handleMouseMove cursor).nodes = c.nodes.map (fun n =>
      if n.id = nid then
        { n with x := cursor.x - c.dragOffset.x, y := cursor.y - c.dragOffset.y }
      else n) := by
    simp [Browser.Canvas.handleMouseMove, hdrag, hsel]
  refine ⟨?_, ?_, ?_⟩
  · intro n hn hid
    rw [hred] at hn
    obtain ⟨a, ha, rfl⟩ := List.mem_map.1 hn
    by_cases h : a.id = nid
    · simp [h]
    · simp [h] at hid
  · intro n hn hid
    rw [hred] at hn
    obtain ⟨a, ha, rfl⟩ := List.mem_map.1 hn
    by_cases h : a.id = nid
    · simp [h] at hid
    · simpa [h] using ha
  · rw [hred, List.map_map]
    congr 1
    funext a
    by_cases h : a.id = nid <;> simp [h]

/-- A canvas mid-drag: node at (50, 50) selected, grab offset (10, 10). -/
def dragCanvas : Browser.Canvas :=
  { Browser.Canvas.initial with
    nodes := [{ id := "d", component := sampleComponent, x := 50, y := 50 }],
    selectedNode := some "d", isDragging := true, dragOffset := ⟨10, 10⟩ }

/-- Claim C7 witness: moving the cursor to (80, 80) puts the dragged node
at (70, 70); moving it to (−100, −100) puts the node at (−110, −110),
outside any nominal canvas boundary — no clamping. -/
theorem handleMouseMove_drag_unclamped_witness :
    ((CanvasNode.mk "d" sampleComponent 70 70).x = 80 - 10 ∧
     (CanvasNode.mk "d" sampleComponent 70 70).y = 80 - 10) ∧
    ((CanvasNode.mk "d" sampleComponent (-110) (-110)).x = -100 - 10 ∧
     (CanvasNode.mk "d" sampleComponent (-110) (-110)).y = -100 - 10) :=
  ⟨(handleMouseMove_drag_unclamped dragCanvas ⟨80, 80⟩ "d" rfl rfl).1
     (CanvasNode.mk "d" sampleComponent 70 70) (by decide) rfl,
   (handleMouseMove_drag_unclamped dragCanvas ⟨-100, -100⟩ "d" rfl rfl).1
     (CanvasNode.mk "d" sampleComponent (-110) (-110)) (by decide) rfl⟩

/-- Claim C8: a connection whose `fromNode`/`toNode` resolves to no node,
or whose `fromPort`/`toPort` is absent from the resolved node's
output/input port list, produces no line and is excluded from the
rendered connection set.  (`drawConnections` is a total function: it never
raises for any well-typed model.) -/
theorem drawConnections_skips_dangling (c : Browser.Canvas) (conn : Browser.Connection)
    (hbad : (∀ n ∈ c.nodes, n.id ≠ conn.fromNode) ∨
            (∀ n ∈ c.nodes, n.id ≠ conn.toNode) ∨
            (∀ fn, c.nodes.find? (fun n => n.id == conn.fromNode) = some fn →
               conn.fromPort ∉ fn.component.outputs) ∨
            (∀ tn, c.nodes.find? (fun n => n.id == conn.toNode) = some tn →
               conn.toPort ∉ tn.component.inputs)) :
    Browser.resolveConnection c.nodes conn = none ∧
    conn ∉ c.renderedConnections := by
  have hnone : Browser.resolveConnection c.nodes conn = none := by
    unfold Browser.resolveConnection
    rcases hbad with h | h | h | h
    · have hf : c.nodes.find? (fun n => n.id == conn.fromNode) = none :=
        List.find?_eq_none.2 (fun n hn => by simpa using h n hn)
      rw [hf]
    · have ht : c.nodes.find? (fun n => n.id == conn.toNode) = none :=
        List.find?_eq_none.2 (fun n hn => by simpa using h n hn)
      rw [ht]
      cases hf : c.nodes.find? (fun n => n.id == conn.fromNode) <;> rfl
    · cases hf : c.nodes.find? (fun n => n.id == conn.fromNode) with
      | none => rfl
      | some fn =>
        cases ht : c.nodes.find? (fun n => n.id == conn.toNode) with
        | none => rfl
        | some tn =>
          have hidx : fn.component.outputs.findIdx? (fun p => p == conn.fromPort) = none := by
            rw [List.findIdx?_eq_none_iff]
            intro p hp
            simpa using fun (he : p = conn.fromPort) => h fn hf (he ▸ hp)
          simp [hidx]
    · cases hf : c.nodes.find? (fun n => n.id == conn.fromNode) with
      | none => rfl
      | some fn =>
        cases ht : c.nodes.find? (fun n => n.id == conn.toNode) with
        | none => rfl
        | some tn =>
          have hidx : tn.component.inputs.findIdx? (fun p => p == conn.toPort) = none := by
            rw [List.findIdx?_eq_none_iff]
            intro p hp
            simpa using fun (he : p = conn.toPort) => h tn ht (he ▸ hp)
          cases hfi : fn.component.outputs.findIdx? (fun p => p == conn.fromPort) with
          | none => simp [hfi]
          | some i => simp [hfi, hidx]
  refine ⟨hnone, ?_⟩
  intro hmem
  have hpred := (List.mem_filter.1 hmem).2
  rw [hnone] at hpred
  simp at hpred

/-- The dangling connection of the import scenario: its `toNode` id "Z"
names no node of the document. -/
def danglingConn : Browser.Connection :=
  { id := "c9", fromNode := "A", fromPort := "out", toNode := "Z", toPort := "in" }

/-- A project document whose connection's `toNode` id is absent from its
node list. -/
def danglingDoc : Browser.ProjectData :=
  { name := some "P", nodes := some [nodeA], connections := some [danglingConn],
    version := "1.0.0", timestamp := "t" }

/-- The IDE after importing `danglingDoc` into a fresh model. -/
def importedIDE : Browser.OSlandIDE :=
  Browser.OSlandIDE.importProjectData
    { canvas := Browser.Canvas.initial, projectName := "Untitled Project" }
    (some danglingDoc)

/-- Claim C8 witness: after importing a document with a connection whose
`toNode` is absent from the node list, that connection is in the model but
produces no line and is excluded from the rendered connection set. -/
theorem drawConnections_skips_dangling_witness :
    Browser.resolveConnection importedIDE.canvas.nodes danglingConn = none ∧
    danglingConn ∉ importedIDE.canvas.renderedConnections ∧
    danglingConn ∈ importedIDE.canvas.connections :=
  ⟨(drawConnections_skips_dangling importedIDE.canvas danglingConn
      (Or.inr (Or.inl (by decide)))).1,
   (drawConnections_skips_dangling importedIDE.canvas danglingConn
      (Or.inr (Or.inl (by decide)))).2,
   by decide⟩

/-- Claim C9: `addNode` is total — for every template and coordinates it
appends exactly one node at the end of the node sequence; the new node's
input/output port lists are the template's, and when the generated id is
fresh (as the `Date.now()`-plus-random-suffix generator is relied upon to
produce) id uniqueness over the node sequence is preserved. -/
theorem addNode_appends_copies_ports_unique_id
    (c : Browser.Canvas) (component : Component) (freshId : String) (x y : Int) :
    (c.addNode component freshId x y).nodes =
      c.nodes ++ [{ id := freshId, component := component, x := x, y := y }] ∧
    (c.addNode component freshId x y).nodes.getLast? =
      some { id := freshId, component := component, x := x, y := y } ∧
    (CanvasNode.mk freshId component x y).component.inputs = component.inputs ∧
    (CanvasNode.mk freshId component x y).component.outputs = component.outputs ∧
    (freshId ∉ c.nodes.map (fun n => n.id) →
       (c.nodes.map (fun n => n.id)).Nodup →
       ((c.addNode component freshId x y).nodes.map (fun n => n.id)).Nodup) := by
  refine ⟨rfl, ?_, rfl, rfl, ?_⟩
  · show (c.nodes ++ [CanvasNode.mk freshId component x y]).getLast? = _
    simp
  · intro hfresh hnodup
    show ((c.nodes ++ [CanvasNode.mk freshId component x y]).map (fun n => n.id)).Nodup
    rw [List.map_append]
    rw [List.nodup_append]
    refine ⟨hnodup, by simp, ?_⟩
    intro a ha hb
    simp only [List.map_cons, List.map_nil, List.mem_singleton] at hb
    rw [hb] at ha
    exact hfresh ha

/-- Claim C9 witness: adding a node from `sampleComponent` at (5, 6) with
the fresh id "new" onto the single-node canvas. -/
theorem addNode_appends_witness :
    (singleNodeCanvas.addNode sampleComponent "new" 5 6).nodes =
      singleNodeCanvas.nodes ++ [CanvasNode.mk "new" sampleComponent 5 6] ∧
    ((singleNodeCanvas.addNode sampleComponent "new" 5 6).nodes.map
        (fun n => n.id)).Nodup :=
  ⟨(addNode_appends_copies_ports_unique_id singleNodeCanvas sampleComponent "new" 5 6).1,
   (addNode_appends_copies_ports_unique_id singleNodeCanvas sampleComponent "new" 5 6).2.2.2.2
     (by decide) (by decide)⟩
